import Mathlib

/-!
A shallow embedding of `src/scheduler.ts` (class `Scheduler`), an in-process
periodic task scheduler.  The JavaScript machine state the scheduler touches is
made explicit: the task map, the set of live `setInterval` handles, the
timer-id allocator, the clock read by `new Date()`, and an event log recording
action invocations and timer arm/clear operations.  Thrown errors are modelled
with `Except`, and an error value carries the scheduler state as it stood at
the moment of the throw.
-/

namespace Sched

/-- The JavaScript number values relevant to interval handling: `NaN`, the two
infinities, and finite values (modelled as integers, which covers every
millisecond count the scheduler deals in). -/
inductive JSNum where
  | nan
  | posInf
  | negInf
  | fin (v : Int)
deriving DecidableEq, Repr

/-- JavaScript truthiness of a number: `0` (and `-0`) and `NaN` are falsy. -/
def JSNum.isFalsy : JSNum → Bool
  | .nan => true
  | .fin v => v == 0
  | _ => false

/-- The JavaScript comparison `x <= 0`; `NaN` compares false against everything
and `-Infinity <= 0` holds. -/
def JSNum.jsLe0 : JSNum → Bool
  | .nan => false
  | .posInf => false
  | .negInf => true
  | .fin v => decide (v ≤ 0)

/-- The spec-side condition on a resolved interval, taken from the spec's
wording "must be a positive finite number"; to be compared with the check the
code actually performs (`intervalInvalid`). -/
def JSNum.isPosFinite : JSNum → Bool
  | .fin v => decide (0 < v)
  | _ => false

/-- Rendering of a number by JavaScript string interpolation, used by the
`Invalid interval` message. -/
def showJSNum : JSNum → String
  | .nan => "NaN"
  | .posInf => "Infinity"
  | .negInf => "-Infinity"
  | .fin v => toString v

/-- The symbolic interval units (`type IntervalUnit`, source line 5). -/
inductive IntervalUnit where
  | second
  | minute
  | hour
  | day
  | week
deriving DecidableEq, Repr

/-- The fixed resolution table `this.intervals` (source lines 31-37). -/
def intervals : IntervalUnit → Nat
  | .second => 1000
  | .minute => 60 * 1000
  | .hour => 60 * 60 * 1000
  | .day => 24 * 60 * 60 * 1000
  | .week => 7 * 24 * 60 * 60 * 1000

/-- The `interval` argument of `schedule`: a symbolic unit or a raw number. -/
inductive IntervalArg where
  | unit (u : IntervalUnit)
  | num (n : JSNum)
deriving DecidableEq, Repr

/-- Interval parsing (source lines 65-67): a string resolves through the
table, a number is used as-is. -/
def resolveInterval : IntervalArg → JSNum
  | .unit u => .fin (intervals u)
  | .num n => n

/-- Rendering of the original `interval` argument for the error message
`Invalid interval: ...` (source line 70). -/
def showIntervalArg : IntervalArg → String
  | .unit .second => "second"
  | .unit .minute => "minute"
  | .unit .hour => "hour"
  | .unit .day => "day"
  | .unit .week => "week"
  | .num n => showJSNum n

/-- The rejection test `!intervalMs || intervalMs <= 0` (source line 69). -/
def intervalInvalid (n : JSNum) : Bool := n.isFalsy || n.jsLe0

/-- The name validation test `!taskName?.trim()` (source line 57): the name is
falsy after trimming exactly when every one of its characters is whitespace
(the trimmed string is then the empty string, which is falsy).  Stated
directly over the characters, which is equivalent to
`taskName.trim.isEmpty`. -/
def trimmedEmpty (s : String) : Bool := s.data.all (fun c => c.isWhitespace)

/-- The observable behaviour of one invocation of a `TaskFunction`
(`() => void | Promise<void>`, source line 6): it returns normally, throws
synchronously, or returns a promise that later resolves or rejects. -/
inductive ActionResult where
  | retUnit
  | throws (e : String)
  | promiseResolves
  | promiseRejects (e : String)
deriving DecidableEq, Repr

/-- Invoking the action and, when it returned a promise, awaiting it: the body
of the `try` block of `executeTask` (source lines 207-210).  An `.error`
result is a failure that would propagate were it not caught. -/
def invokeAndAwait : ActionResult → Except String Unit
  | .retUnit => .ok ()
  | .promiseResolves => .ok ()
  | .throws e => .error e
  | .promiseRejects e => .error e

/-- `executeTask` (source lines 205-214): run the action inside `try`, await a
returned promise, and catch any failure, reporting it with `console.error`.
The `.ok` payload is the reported message (`none` when the run succeeded); an
`.error` result would mean a failure escaped the wrapper. -/
def executeTask (r : ActionResult) : Except String (Option String) :=
  match invokeAndAwait r with
  | .ok _ => .ok none
  | .error e => .ok (some e)

/-- One entry of the private `tasks` map (source lines 22-29).  The stored
function is represented by an abstract identifier `funcId`, the scheduler
never inspects it.  `maxExecutions` is the optional cap; the spec only ever
passes optional positive integers, so it is a `Option Nat`, and the JS
truthiness guard `task.maxExecutions &&` becomes the `!= 0` test of
`capCheck`. -/
structure TaskEntry where
  timerId : Nat
  funcId : Nat
  interval : JSNum
  startTime : Nat
  executionCount : Nat
  maxExecutions : Option Nat
deriving DecidableEq, Repr

/-- The externally visible effects the scheduler produces, kept in order in an
event log: an action invocation through the wrapper, `setInterval`, and
`clearInterval`. -/
inductive Event where
  | invoke (funcId : Nat) (r : ActionResult)
  | armTimer (timerId : Nat)
  | clearTimer (timerId : Nat)
deriving DecidableEq, Repr

/-- The scheduler state: the `tasks` map (an association list, as a JS `Map`
keyed by task name), the live `setInterval` handles together with the task
name each callback captured, the timer-id allocator, the current clock value
read by `new Date()`, and the event log. -/
structure Scheduler where
  tasks : List (String × TaskEntry)
  activeTimers : List (Nat × String)
  nextTimerId : Nat
  now : Nat
  events : List Event
deriving DecidableEq, Repr

/-- `new Scheduler()`: empty registry, no timers. -/
def newScheduler : Scheduler := ⟨[], [], 0, 0, []⟩

/-- `Map.get` on the task map. -/
def mapGet (m : List (String × TaskEntry)) (k : String) : Option TaskEntry :=
  match m with
  | [] => none
  | p :: rest => if p.1 == k then some p.2 else mapGet rest k

/-- `Map.set` on the task map: replace in place when the key is present,
append otherwise. -/
def mapSet (m : List (String × TaskEntry)) (k : String) (v : TaskEntry) :
    List (String × TaskEntry) :=
  match m with
  | [] => [(k, v)]
  | p :: rest => if p.1 == k then (k, v) :: rest else p :: mapSet rest k v

/-- `Map.delete` on the task map.  On the unique-key states a JS `Map` can
hold, removing every pair with the key is removing the pair. -/
def mapDelete (m : List (String × TaskEntry)) (k : String) :
    List (String × TaskEntry) :=
  m.filter (fun p => p.1 != k)

/-- How many entries of the map carry the key `k`. -/
def countKey (m : List (String × TaskEntry)) (k : String) : Nat :=
  (m.filter (fun p => p.1 == k)).length

/-- The auto-stop test
`task.maxExecutions && task.executionCount >= task.maxExecutions`
(source line 90); `undefined` and `0` are falsy. -/
def capCheck (maxExecutions : Option Nat) (count : Nat) : Bool :=
  match maxExecutions with
  | none => false
  | some m => (m != 0) && decide (m ≤ count)

/-- `stop` (source lines 112-120): look the task up; when absent return
`false` with nothing changed; when present `clearInterval` its timer, delete
the entry, and return `true`.  Total: `stop` never throws. -/
def stop (s : Scheduler) (taskName : String) : Bool × Scheduler :=
  match mapGet s.tasks taskName with
  | none => (false, s)
  | some task =>
      (true,
        { s with
          activeTimers := s.activeTimers.filter (fun p => p.1 != task.timerId),
          tasks := mapDelete s.tasks taskName,
          events := s.events ++ [Event.clearTimer task.timerId] })

/-- `await this.executeTask(func)`: one invocation through the wrapper,
recorded in the event log; a rejection of `executeTask` itself would propagate
to the awaiting caller (`.error`). -/
def awaitWrapped (s : Scheduler) (funcId : Nat) (r : ActionResult) :
    Except String Scheduler :=
  match executeTask r with
  | .ok _ => .ok { s with events := s.events ++ [Event.invoke funcId r] }
  | .error e => .error e

/-- `this.executeTask(func)` without `await` (source line 78): the wrapper
runs, its outcome is discarded, and nothing can reach `schedule`'s caller. -/
def fireAndForget (s : Scheduler) (funcId : Nat) (r : ActionResult) : Scheduler :=
  match executeTask r with
  | .ok _ => { s with events := s.events ++ [Event.invoke funcId r] }
  | .error _ => { s with events := s.events ++ [Event.invoke funcId r] }

/-- The body of the `setInterval` callback created by `schedule` for
`taskName` (source lines 82-93): look the task up again (it may have been
removed concurrently; then the tick is a no-op), run the action through the
wrapper, increment `executionCount`, and stop the task when the cap is
reached.  An `.error` result would be an uncaught failure escaping the
callback, carrying the state at the throw. -/
def tickBody (s : Scheduler) (taskName : String) (r : ActionResult) :
    Except (String × Scheduler) Scheduler :=
  match mapGet s.tasks taskName with
  | none => .ok s
  | some task =>
      match awaitWrapped s task.funcId r with
      | .error e => .error (e, s)
      | .ok s1 =>
          let task1 : TaskEntry := { task with executionCount := task.executionCount + 1 }
          let s2 : Scheduler := { s1 with tasks := mapSet s1.tasks taskName task1 }
          if capCheck task1.maxExecutions task1.executionCount then
            .ok (stop s2 taskName).2
          else
            .ok s2

/-- One firing of the timer `timerId`: a handle that was cleared (absent from
`activeTimers`) never fires; a live one runs the callback for the task name it
captured. -/
def tick (s : Scheduler) (timerId : Nat) (r : ActionResult) :
    Except (String × Scheduler) Scheduler :=
  match s.activeTimers.find? (fun p => p.1 == timerId) with
  | none => .ok s
  | some p => tickBody s p.2 r

/-- `executeNow` (source lines 125-132): when the task is absent report
`false`; otherwise run the action through the wrapper, increment
`executionCount` (without any cap check), and report `true`. -/
def executeNow (s : Scheduler) (taskName : String) (r : ActionResult) :
    Except (String × Scheduler) (Bool × Scheduler) :=
  match mapGet s.tasks taskName with
  | none => .ok (false, s)
  | some task =>
      match awaitWrapped s task.funcId r with
      | .error e => .error (e, s)
      | .ok s1 =>
          let task1 : TaskEntry := { task with executionCount := task.executionCount + 1 }
          .ok (true, { s1 with tasks := mapSet s1.tasks taskName task1 })

/-- The `func` argument as seen at runtime: a genuine function (identified
abstractly) or a non-function value slipped past the static types, which the
runtime check `typeof func !== 'function'` (source line 60) rejects. -/
inductive FuncArg where
  | fn (id : Nat)
  | notFn
deriving DecidableEq, Repr

/-- The `options` argument of `schedule` (source lines 16-19). -/
structure ScheduleOptions where
  runImmediately : Bool
  maxExecutions : Option Nat
deriving DecidableEq, Repr

/-- `schedule` (source lines 50-107).  Validation in source order (name, then
function, then interval), then the side effects in source order: stop any
existing task of the same name, run the action once through the wrapper when
`runImmediately` is set (fire-and-forget, before the timer is armed, no
counter touched), arm a fresh periodic timer, and store the new entry with
`executionCount = 0` and `startTime = now`.  A thrown `Error` is returned as
`.error (message, state at the throw)`. -/
def schedule (s : Scheduler) (taskName : String) (func : FuncArg)
    (interval : IntervalArg) (options : ScheduleOptions)
    (immediateRun : ActionResult) : Except (String × Scheduler) Scheduler :=
  if trimmedEmpty taskName then
    .error ("Task name is required", s)
  else
    match func with
    | .notFn => .error ("Function is required", s)
    | .fn funcId =>
        let intervalMs := resolveInterval interval
        if intervalInvalid intervalMs then
          .error ("Invalid interval: " ++ showIntervalArg interval, s)
        else
          let s1 := (stop s taskName).2
          let s2 := if options.runImmediately then fireAndForget s1 funcId immediateRun else s1
          let timerId := s2.nextTimerId
          let s3 : Scheduler :=
            { s2 with
              activeTimers := s2.activeTimers ++ [(timerId, taskName)],
              nextTimerId := timerId + 1,
              events := s2.events ++ [Event.armTimer timerId] }
          .ok { s3 with
                tasks := mapSet s3.tasks taskName
                  { timerId := timerId, funcId := funcId, interval := intervalMs,
                    startTime := s3.now, executionCount := 0,
                    maxExecutions := options.maxExecutions } }

/-- The state a successful `schedule` call produces, written out explicitly in
terms of the starting state (proved equal to `schedule`'s result in
`schedule_ok`). -/
def scheduleResult (s : Scheduler) (taskName : String) (funcId : Nat)
    (interval : IntervalArg) (options : ScheduleOptions)
    (immediateRun : ActionResult) : Scheduler :=
  let s1 := (stop s taskName).2
  { tasks := mapSet s1.tasks taskName
      { timerId := s1.nextTimerId, funcId := funcId,
        interval := resolveInterval interval, startTime := s1.now,
        executionCount := 0, maxExecutions := options.maxExecutions },
    activeTimers := s1.activeTimers ++ [(s1.nextTimerId, taskName)],
    nextTimerId := s1.nextTimerId + 1,
    now := s1.now,
    events := (if options.runImmediately then
                 s1.events ++ [Event.invoke funcId immediateRun]
               else s1.events) ++ [Event.armTimer s1.nextTimerId] }

/-- `stopAll` (source lines 137-143): capture `tasks.size`, stop every
registered name, return the captured count. -/
def stopAll (s : Scheduler) : Nat × Scheduler :=
  (s.tasks.length, (s.tasks.map (fun p => p.1)).foldl (fun acc k => (stop acc k).2) s)

/-- The public snapshot `TaskInfo` (source lines 8-14). -/
structure TaskInfo where
  name : String
  interval : JSNum
  startTime : Nat
  executionCount : Nat
  isActive : Bool
deriving DecidableEq, Repr

/-- `getTask` (source lines 148-159): project an entry to a fresh snapshot,
`isActive` always `true`; absent names give `null`. -/
def getTask (s : Scheduler) (taskName : String) : Option TaskInfo :=
  match mapGet s.tasks taskName with
  | none => none
  | some task =>
      some { name := taskName, interval := task.interval,
             startTime := task.startTime, executionCount := task.executionCount,
             isActive := true }

/-- `getActiveTasks` (source lines 164-166). -/
def getActiveTasks (s : Scheduler) : List String := s.tasks.map (fun p => p.1)

/-- `getAllTasks` (source lines 171-180). -/
def getAllTasks (s : Scheduler) : List (String × TaskInfo) :=
  (s.tasks.map (fun p => p.1)).filterMap
    (fun k => (getTask s k).map (fun info => (k, info)))

/-- `hasTask` (source lines 185-187). -/
def hasTask (s : Scheduler) (taskName : String) : Bool :=
  (mapGet s.tasks taskName).isSome

/-- The `taskCount` accessor (source lines 192-194). -/
def taskCount (s : Scheduler) : Nat := s.tasks.length

/-- `destroy` (source lines 199-202): just `stopAll`. -/
def destroy (s : Scheduler) : Scheduler := (stopAll s).2

/-- The scheduler state carried by a thrown `schedule` error; `none` when the
call succeeded. -/
def scheduleErrState (x : Except (String × Scheduler) Scheduler) : Option Scheduler :=
  match x with
  | .ok _ => none
  | .error p => some p.2

/-- The state `executeNow` (and the increment half of a tick) leaves behind on
a task that was found: the action invoked once through the wrapper and the
entry's counter incremented in place. -/
def tickIncState (s : Scheduler) (taskName : String) (task : TaskEntry)
    (r : ActionResult) : Scheduler :=
  { s with
    tasks := mapSet s.tasks taskName
      { task with executionCount := task.executionCount + 1 },
    events := s.events ++ [Event.invoke task.funcId r] }

/-- A sample registered task used to instantiate theorems with hypotheses. -/
def sampleTask : TaskEntry := ⟨0, 0, JSNum.fin 1000, 0, 0, none⟩

/-- A sample scheduler state holding `sampleTask` under the name `"t"`, with
its periodic timer live. -/
def sampleState : Scheduler := ⟨[("t", sampleTask)], [(0, "t")], 1, 0, []⟩

/-- The state produced by `schedule newScheduler "t" … maxExecutions = 1`,
computed by hand; equality with the real run is part of `C1_counterexample`. -/
def c1State1 : Scheduler :=
  ⟨[("t", ⟨0, 0, JSNum.fin 1000, 0, 0, some 1⟩)], [(0, "t")], 1, 0,
    [Event.armTimer 0]⟩

/-- The entry of `c1State2` after `executeNow` pushed its counter to the cap. -/
def c1Task2 : TaskEntry := ⟨0, 0, JSNum.fin 1000, 0, 1, some 1⟩

/-- The state after `executeNow c1State1 "t"`: the counter has reached the cap
`maxExecutions = 1`, yet the task is still registered and its timer live. -/
def c1State2 : Scheduler :=
  ⟨[("t", c1Task2)], [(0, "t")], 1, 0,
    [Event.armTimer 0, Event.invoke 0 ActionResult.retUnit]⟩

/-! Helper lemmas about the map operations and the operation bodies. -/

theorem mapGet_mapSet_self (m : List (String × TaskEntry)) (k : String) (v : TaskEntry) :
    mapGet (mapSet m k v) k = some v := by
  induction m with
  | nil => simp [mapSet, mapGet]
  | cons p rest ih =>
      cases h : (p.1 == k) with
      | true => simp [mapSet, mapGet, h]
      | false => simp [mapSet, mapGet, h, ih]

theorem mapGet_mapSet_ne (m : List (String × TaskEntry)) (k k2 : String) (v : TaskEntry)
    (h : ¬ k2 = k) : mapGet (mapSet m k v) k2 = mapGet m k2 := by
  have hks : ¬ k = k2 := fun hh => h hh.symm
  induction m with
  | nil => simp [mapSet, mapGet, hks]
  | cons p rest ih =>
      cases hp : (p.1 == k) with
      | true =>
          have hpk : p.1 = k := by simpa using hp
          simp [mapSet, mapGet, hp, hpk, hks]
      | false => simp [mapSet, mapGet, hp, ih]

theorem mapGet_mapDelete_self (m : List (String × TaskEntry)) (k : String) :
    mapGet (mapDelete m k) k = none := by
  induction m with
  | nil => simp [mapDelete, mapGet]
  | cons p rest ih =>
      cases h : (p.1 == k) with
      | true => simpa [mapDelete, List.filter_cons, bne, h] using ih
      | false => simpa [mapDelete, mapGet, List.filter_cons, bne, h] using ih

theorem mapGet_mapDelete_ne (m : List (String × TaskEntry)) (k k2 : String)
    (h : ¬ k2 = k) : mapGet (mapDelete m k) k2 = mapGet m k2 := by
  have hks : ¬ k = k2 := fun hh => h hh.symm
  induction m with
  | nil => simp [mapDelete, mapGet]
  | cons p rest ih =>
      cases hp : (p.1 == k) with
      | true =>
          have hpk : p.1 = k := by simpa using hp
          simpa [mapDelete, mapGet, List.filter_cons, bne, hp, hpk, hks] using ih
      | false =>
          have ih2 : mapGet (List.filter (fun q => !(q.1 == k)) rest) k2 = mapGet rest k2 := by
            simpa [mapDelete, bne] using ih
          simp [mapDelete, mapGet, List.filter_cons, bne, hp, ih2]

theorem mapSet_eq_append (m : List (String × TaskEntry)) (k : String) (v : TaskEntry)
    (h : mapGet m k = none) : mapSet m k v = m ++ [(k, v)] := by
  induction m with
  | nil => simp [mapSet]
  | cons p rest ih =>
      cases hp : (p.1 == k) with
      | true => simp [mapGet, hp] at h
      | false =>
          have h2 : mapGet rest k = none := by simpa [mapGet, hp] using h
          simp [mapSet, hp, ih h2]

theorem mapDelete_mapSet_self (m : List (String × TaskEntry)) (k : String) (v : TaskEntry) :
    mapDelete (mapSet m k v) k = mapDelete m k := by
  induction m with
  | nil => simp [mapSet, mapDelete, List.filter_cons]
  | cons p rest ih =>
      cases hp : (p.1 == k) with
      | true => simp [mapSet, mapDelete, List.filter_cons, bne, hp]
      | false => simpa [mapSet, mapDelete, List.filter_cons, bne, hp] using ih

theorem countKey_mapDelete_self (m : List (String × TaskEntry)) (k : String) :
    countKey (mapDelete m k) k = 0 := by
  induction m with
  | nil => simp [mapDelete, countKey]
  | cons p rest ih =>
      cases hp : (p.1 == k) with
      | true => simp [mapDelete, countKey, List.filter_cons, bne, hp]
      | false => simp [mapDelete, countKey, List.filter_cons, bne, hp]

theorem countKey_append_single (m : List (String × TaskEntry)) (k : String) (v : TaskEntry) :
    countKey (m ++ [(k, v)]) k = countKey m k + 1 := by
  simp [countKey, List.filter_append]

theorem mapGet_eq_none_iff (m : List (String × TaskEntry)) (k : String) :
    mapGet m k = none ↔ ∀ p ∈ m, ¬ p.1 = k := by
  induction m with
  | nil => simp [mapGet]
  | cons p rest ih =>
      cases hp : (p.1 == k) with
      | true =>
          have hpk : p.1 = k := by simpa using hp
          simp [mapGet, hp, hpk]
      | false =>
          have hpk : ¬ p.1 = k := by simpa using hp
          simp [mapGet, hp, ih, hpk]

theorem stop_snd_nextTimerId (s : Scheduler) (k : String) :
    ((stop s k).2).nextTimerId = s.nextTimerId := by
  cases h : mapGet s.tasks k <;> simp [stop, h]

theorem stop_snd_now (s : Scheduler) (k : String) :
    ((stop s k).2).now = s.now := by
  cases h : mapGet s.tasks k <;> simp [stop, h]

theorem stop_absent (s : Scheduler) (taskName : String)
    (h : mapGet s.tasks taskName = none) : stop s taskName = (false, s) := by
  simp [stop, h]

theorem fireAndForget_eq (s : Scheduler) (funcId : Nat) (r : ActionResult) :
    fireAndForget s funcId r = { s with events := s.events ++ [Event.invoke funcId r] } := by
  cases r <;> rfl

theorem awaitWrapped_eq (s : Scheduler) (funcId : Nat) (r : ActionResult) :
    awaitWrapped s funcId r
      = .ok { s with events := s.events ++ [Event.invoke funcId r] } := by
  cases r <;> rfl

theorem schedule_ok (s : Scheduler) (taskName : String) (funcId : Nat)
    (interval : IntervalArg) (options : ScheduleOptions) (immediateRun : ActionResult)
    (hname : trimmedEmpty taskName = false)
    (hint : intervalInvalid (resolveInterval interval) = false) :
    schedule s taskName (.fn funcId) interval options immediateRun
      = .ok (scheduleResult s taskName funcId interval options immediateRun) := by
  cases hri : options.runImmediately <;>
    simp [schedule, scheduleResult, hname, hint, hri, fireAndForget_eq]

theorem executeNow_some (s : Scheduler) (taskName : String) (task : TaskEntry)
    (r : ActionResult) (hget : mapGet s.tasks taskName = some task) :
    executeNow s taskName r = .ok (true, tickIncState s taskName task r) := by
  simp [executeNow, hget, awaitWrapped_eq, tickIncState]

theorem tickBody_some (s : Scheduler) (taskName : String) (task : TaskEntry)
    (r : ActionResult) (hget : mapGet s.tasks taskName = some task) :
    tickBody s taskName r
      = .ok (if capCheck task.maxExecutions (task.executionCount + 1)
             then (stop (tickIncState s taskName task r) taskName).2
             else tickIncState s taskName task r) := by
  cases hc : capCheck task.maxExecutions (task.executionCount + 1) <;>
    simp [tickBody, hget, awaitWrapped_eq, tickIncState, hc]

theorem stopFold_tasks_nil (l : List String) (s : Scheduler)
    (h : ∀ p ∈ s.tasks, p.1 ∈ l) :
    (l.foldl (fun acc k => (stop acc k).2) s).tasks = [] := by
  induction l generalizing s with
  | nil =>
      cases hs : s.tasks with
      | nil => simpa using hs
      | cons p rest =>
          have : p.1 ∈ ([] : List String) := h p (by rw [hs]; exact List.mem_cons_self p rest)
          simp at this
  | cons k l2 ih =>
      simp only [List.foldl_cons]
      apply ih
      intro p hp
      cases hg : mapGet s.tasks k with
      | none =>
          have hps : p ∈ s.tasks := by simpa [stop, hg] using hp
          have hne : ¬ p.1 = k := (mapGet_eq_none_iff s.tasks k).mp hg p hps
          have := h p hps
          simp only [List.mem_cons] at this
          exact this.resolve_left hne
      | some task =>
          have hp2 : p ∈ mapDelete s.tasks k := by simpa [stop, hg] using hp
          have hmem := List.mem_filter.mp hp2
          have hne : ¬ p.1 = k := by simpa using hmem.2
          have := h p hmem.1
          simp only [List.mem_cons] at this
          exact this.resolve_left hne

theorem stopAll_tasks_nil (s : Scheduler) : (stopAll s).2.tasks = [] := by
  show ((s.tasks.map (fun p => p.1)).foldl (fun acc k => (stop acc k).2) s).tasks = []
  exact stopFold_tasks_nil _ s (fun p hp => List.mem_map_of_mem (fun q => q.1) hp)

theorem tick_of_tasks_nil (s : Scheduler) (timerId : Nat) (r : ActionResult)
    (h : s.tasks = []) : tick s timerId r = .ok s := by
  cases hf : s.activeTimers.find? (fun p => p.1 == timerId) with
  | none => simp [tick, hf]
  | some p => simp [tick, hf, tickBody, h, mapGet]

/-! Claim theorems. -/

/-- C2, counterexample: the claim says `schedule` throws exactly when the
resolved interval is not a positive finite number, so `Infinity` should be
rejected; but the code's test `!intervalMs || intervalMs <= 0` lets
`Infinity` through and the call succeeds. -/
theorem C2_interval_counterexample :
    JSNum.isPosFinite (resolveInterval (IntervalArg.num JSNum.posInf)) = false ∧
    schedule newScheduler "t" (FuncArg.fn 0) (IntervalArg.num JSNum.posInf)
        ⟨false, none⟩ ActionResult.retUnit
      = .ok (scheduleResult newScheduler "t" 0 (IntervalArg.num JSNum.posInf)
          ⟨false, none⟩ ActionResult.retUnit) :=
  ⟨rfl, rfl⟩

/-- C2, amended: symbolic intervals resolve through the fixed table
(second = 1000 ms, minute = 60000 ms, hour = 3600000 ms, day = 86400000 ms,
week = 604800000 ms), numeric intervals are used as-is, and `schedule` throws
`Invalid interval: ...` exactly when the resolved value is `NaN`, zero, or
non-positive — that is, exactly when it is neither a positive finite number
nor `Infinity`; `Infinity` itself is accepted. -/
theorem C2_interval_amended (s : Scheduler) (taskName : String) (funcId : Nat)
    (interval : IntervalArg) (options : ScheduleOptions) (r : ActionResult)
    (z n : JSNum) (hname : trimmedEmpty taskName = false) :
    intervals .second = 1000 ∧ intervals .minute = 60000 ∧
    intervals .hour = 3600000 ∧ intervals .day = 86400000 ∧
    intervals .week = 604800000 ∧
    resolveInterval (IntervalArg.num z) = z ∧
    (intervalInvalid (resolveInterval interval) = true →
      schedule s taskName (.fn funcId) interval options r
        = .error ("Invalid interval: " ++ showIntervalArg interval, s)) ∧
    (intervalInvalid (resolveInterval interval) = false →
      schedule s taskName (.fn funcId) interval options r
        = .ok (scheduleResult s taskName funcId interval options r)) ∧
    intervalInvalid n = !(n.isPosFinite || n == JSNum.posInf) := by
  refine ⟨rfl, rfl, rfl, rfl, rfl, rfl, ?_, ?_, ?_⟩
  · intro h
    simp [schedule, hname, h]
  · intro h
    exact schedule_ok s taskName funcId interval options r hname h
  · cases n with
    | nan => rfl
    | posInf => rfl
    | negInf => rfl
    | fin v =>
        by_cases h : (0 : Int) < v
        · have hne : ¬ v = 0 := by omega
          have hnle : ¬ v ≤ 0 := by omega
          simp [intervalInvalid, JSNum.isFalsy, JSNum.jsLe0, JSNum.isPosFinite, h, hne, hnle]
        · have hle : v ≤ 0 := by omega
          simp [intervalInvalid, JSNum.isFalsy, JSNum.jsLe0, JSNum.isPosFinite, h, hle]

/-- Witness for C2_interval_amended at `schedule('ping', f, 'second')`. -/
theorem C2_interval_amended_witness :
    intervals .second = 1000 ∧ intervals .minute = 60000 ∧
    intervals .hour = 3600000 ∧ intervals .day = 86400000 ∧
    intervals .week = 604800000 ∧
    resolveInterval (IntervalArg.num (JSNum.fin 500)) = JSNum.fin 500 ∧
    (intervalInvalid (resolveInterval (IntervalArg.unit .second)) = true →
      schedule newScheduler "ping" (.fn 0) (IntervalArg.unit .second)
          ⟨false, none⟩ ActionResult.retUnit
        = .error ("Invalid interval: " ++ showIntervalArg (IntervalArg.unit .second),
            newScheduler)) ∧
    (intervalInvalid (resolveInterval (IntervalArg.unit .second)) = false →
      schedule newScheduler "ping" (.fn 0) (IntervalArg.unit .second)
          ⟨false, none⟩ ActionResult.retUnit
        = .ok (scheduleResult newScheduler "ping" 0 (IntervalArg.unit .second)
            ⟨false, none⟩ ActionResult.retUnit)) ∧
    intervalInvalid JSNum.posInf
      = !(JSNum.posInf.isPosFinite || JSNum.posInf == JSNum.posInf) :=
  C2_interval_amended newScheduler "ping" 0 (IntervalArg.unit .second)
    ⟨false, none⟩ ActionResult.retUnit (JSNum.fin 500) JSNum.posInf rfl

/-- C8: a `schedule` call that fails validation throws the matching
distinguishable error with the state exactly as it was (the error carries the
state at the throw, which is the input state: no timer armed, no entry
stored), and the checks run in source order: an empty name wins over a bad
function, a bad function wins over a bad interval. -/
theorem C8_validation_failures (s : Scheduler) (taskName : String) (funcId : Nat)
    (interval : IntervalArg) (options : ScheduleOptions) (r : ActionResult) :
    (trimmedEmpty taskName = true →
      schedule s taskName (.fn funcId) interval options r
        = .error ("Task name is required", s) ∧
      schedule s taskName .notFn interval options r
        = .error ("Task name is required", s)) ∧
    (trimmedEmpty taskName = false →
      schedule s taskName .notFn interval options r
        = .error ("Function is required", s)) ∧
    (trimmedEmpty taskName = false →
      intervalInvalid (resolveInterval interval) = true →
      schedule s taskName (.fn funcId) interval options r
        = .error ("Invalid interval: " ++ showIntervalArg interval, s)) := by
  refine ⟨fun h => ⟨?_, ?_⟩, fun h => ?_, fun h1 h2 => ?_⟩ <;> simp [schedule, *]

/-- Witness for C8_validation_failures: the three failure modes at concrete
inputs. -/
theorem C8_validation_failures_witness :
    schedule newScheduler "" (FuncArg.fn 0) (IntervalArg.unit .second)
        ⟨false, none⟩ ActionResult.retUnit
      = .error ("Task name is required", newScheduler) ∧
    schedule newScheduler "t" FuncArg.notFn (IntervalArg.unit .second)
        ⟨false, none⟩ ActionResult.retUnit
      = .error ("Function is required", newScheduler) ∧
    schedule newScheduler "t" (FuncArg.fn 0) (IntervalArg.num (JSNum.fin 0))
        ⟨false, none⟩ ActionResult.retUnit
      = .error ("Invalid interval: "
          ++ showIntervalArg (IntervalArg.num (JSNum.fin 0)), newScheduler) :=
  ⟨((C8_validation_failures newScheduler "" 0 (IntervalArg.unit .second)
      ⟨false, none⟩ ActionResult.retUnit).1 rfl).1,
   (C8_validation_failures newScheduler "t" 0 (IntervalArg.unit .second)
      ⟨false, none⟩ ActionResult.retUnit).2.1 rfl,
   (C8_validation_failures newScheduler "t" 0 (IntervalArg.num (JSNum.fin 0))
      ⟨false, none⟩ ActionResult.retUnit).2.2 rfl rfl⟩

/-- C10 (implicit): all validation runs before the internal `stop`, so a
`schedule` call that throws a validation error while a task of that name is
registered leaves the state exactly as it was — the error carries the input
state unchanged, the existing entry (timer, interval, counter, cap) intact. -/
theorem C10_failed_replace_preserves (s : Scheduler) (taskName : String)
    (oldTask : TaskEntry) (func : FuncArg) (interval : IntervalArg)
    (options : ScheduleOptions) (r : ActionResult)
    (hreg : mapGet s.tasks taskName = some oldTask)
    (hbad : trimmedEmpty taskName = true ∨ func = FuncArg.notFn ∨
            intervalInvalid (resolveInterval interval) = true) :
    scheduleErrState (schedule s taskName func interval options r) = some s ∧
    mapGet s.tasks taskName = some oldTask := by
  refine ⟨?_, hreg⟩
  by_cases hn : trimmedEmpty taskName
  · simp [schedule, scheduleErrState, hn]
  · cases func with
    | notFn => simp [schedule, scheduleErrState, hn]
    | fn fid =>
        have hbad2 : intervalInvalid (resolveInterval interval) = true := by
          rcases hbad with h | h | h
          · exact absurd h hn
          · exact absurd h (by simp)
          · exact h
        simp [schedule, scheduleErrState, hn, hbad2]

/-- Witness for C10_failed_replace_preserves: replacing `"t"` with an invalid
interval throws and carries the unchanged state. -/
theorem C10_failed_replace_preserves_witness :
    scheduleErrState (schedule sampleState "t" (FuncArg.fn 1)
        (IntervalArg.num (JSNum.fin 0)) ⟨false, none⟩ ActionResult.retUnit)
      = some sampleState ∧
    mapGet sampleState.tasks "t" = some sampleTask :=
  C10_failed_replace_preserves sampleState "t" sampleTask (FuncArg.fn 1)
    (IntervalArg.num (JSNum.fin 0)) ⟨false, none⟩ ActionResult.retUnit rfl
    (Or.inr (Or.inr rfl))

/-- C7: `stop` on a registered name returns `true`, releases the task's timer
(`clearInterval`), and removes exactly that entry, leaving every other entry
untouched; the call never throws (it is a total function), and on a state
where the name is absent — such as right after the removal — it returns
`false` and changes nothing, so a second `stop` on the same name returns
`false`. -/
theorem C7_stop_contract (s : Scheduler) (taskName k2 : String) (task : TaskEntry)
    (hget : mapGet s.tasks taskName = some task) (hk2 : ¬ k2 = taskName) :
    stop s taskName = (true,
      { s with
        activeTimers := s.activeTimers.filter (fun p => p.1 != task.timerId),
        tasks := mapDelete s.tasks taskName,
        events := s.events ++ [Event.clearTimer task.timerId] }) ∧
    mapGet (mapDelete s.tasks taskName) taskName = none ∧
    mapGet (mapDelete s.tasks taskName) k2 = mapGet s.tasks k2 ∧
    stop (stop s taskName).2 taskName = (false, (stop s taskName).2) := by
  have h1 : stop s taskName = (true,
      { s with
        activeTimers := s.activeTimers.filter (fun p => p.1 != task.timerId),
        tasks := mapDelete s.tasks taskName,
        events := s.events ++ [Event.clearTimer task.timerId] }) := by
    simp [stop, hget]
  refine ⟨h1, mapGet_mapDelete_self _ _, mapGet_mapDelete_ne _ _ _ hk2, ?_⟩
  have h2 : mapGet ((stop s taskName).2).tasks taskName = none := by
    rw [h1]
    exact mapGet_mapDelete_self _ _
  exact stop_absent _ _ h2

/-- Witness for C7_stop_contract on the sample state. -/
theorem C7_stop_contract_witness :
    stop sampleState "t" = (true,
      { sampleState with
        activeTimers := sampleState.activeTimers.filter (fun p => p.1 != sampleTask.timerId),
        tasks := mapDelete sampleState.tasks "t",
        events := sampleState.events ++ [Event.clearTimer sampleTask.timerId] }) ∧
    mapGet (mapDelete sampleState.tasks "t") "t" = none ∧
    mapGet (mapDelete sampleState.tasks "t") "u" = mapGet sampleState.tasks "u" ∧
    stop (stop sampleState "t").2 "t" = (false, (stop sampleState "t").2) :=
  C7_stop_contract sampleState "t" "u" sampleTask rfl (by decide)

/-- C6: `executeNow` on a registered name invokes the action exactly once
through the wrapper, increments that entry's counter by exactly 1 (leaving its
`timerId`, `interval`, `startTime` and `maxExecutions` fields as they were,
as the record update shows), returns `true`, touches no other entry and no
timer; on a state where the name is absent it returns `false` and changes
nothing. -/
theorem C6_executeNow_contract (s : Scheduler) (taskName : String) (task : TaskEntry)
    (r : ActionResult) (hget : mapGet s.tasks taskName = some task) :
    executeNow s taskName r = .ok (true, tickIncState s taskName task r) ∧
    mapGet (tickIncState s taskName task r).tasks taskName
      = some { task with executionCount := task.executionCount + 1 } ∧
    mapDelete (tickIncState s taskName task r).tasks taskName = mapDelete s.tasks taskName ∧
    (tickIncState s taskName task r).activeTimers = s.activeTimers ∧
    (tickIncState s taskName task r).events = s.events ++ [Event.invoke task.funcId r] ∧
    executeNow { s with tasks := mapDelete s.tasks taskName } taskName r
      = .ok (false, { s with tasks := mapDelete s.tasks taskName }) := by
  refine ⟨executeNow_some s taskName task r hget, ?_, ?_, rfl, rfl, ?_⟩
  · simp [tickIncState, mapGet_mapSet_self]
  · simp [tickIncState, mapDelete_mapSet_self]
  · simp [executeNow, mapGet_mapDelete_self]

/-- Witness for C6_executeNow_contract on the sample state. -/
theorem C6_executeNow_contract_witness :
    executeNow sampleState "t" ActionResult.retUnit
      = .ok (true, tickIncState sampleState "t" sampleTask ActionResult.retUnit) ∧
    mapGet (tickIncState sampleState "t" sampleTask ActionResult.retUnit).tasks "t"
      = some { sampleTask with executionCount := sampleTask.executionCount + 1 } ∧
    mapDelete (tickIncState sampleState "t" sampleTask ActionResult.retUnit).tasks "t"
      = mapDelete sampleState.tasks "t" ∧
    (tickIncState sampleState "t" sampleTask ActionResult.retUnit).activeTimers
      = sampleState.activeTimers ∧
    (tickIncState sampleState "t" sampleTask ActionResult.retUnit).events
      = sampleState.events ++ [Event.invoke sampleTask.funcId ActionResult.retUnit] ∧
    executeNow { sampleState with tasks := mapDelete sampleState.tasks "t" } "t"
        ActionResult.retUnit
      = .ok (false, { sampleState with tasks := mapDelete sampleState.tasks "t" }) :=
  C6_executeNow_contract sampleState "t" sampleTask ActionResult.retUnit rfl

/-- C5: a successful `schedule` immediately followed by `getTask` yields a
snapshot with `executionCount = 0` and `isActive = true`, the stored entry
carries `startTime = now` and the given `maxExecutions`; with
`runImmediately`, the single immediate invocation is logged before the timer
is armed and leaves the stored counter at 0. -/
theorem C5_snapshot_after_schedule (s : Scheduler) (taskName : String) (funcId : Nat)
    (interval : IntervalArg) (options : ScheduleOptions) (r : ActionResult)
    (hname : trimmedEmpty taskName = false)
    (hint : intervalInvalid (resolveInterval interval) = false) :
    schedule s taskName (.fn funcId) interval options r
      = .ok (scheduleResult s taskName funcId interval options r) ∧
    getTask (scheduleResult s taskName funcId interval options r) taskName
      = some ⟨taskName, resolveInterval interval, s.now, 0, true⟩ ∧
    hasTask (scheduleResult s taskName funcId interval options r) taskName = true ∧
    mapGet (scheduleResult s taskName funcId interval options r).tasks taskName
      = some ⟨s.nextTimerId, funcId, resolveInterval interval, s.now, 0,
          options.maxExecutions⟩ ∧
    (options.runImmediately = true →
      (scheduleResult s taskName funcId interval options r).events
        = (stop s taskName).2.events
            ++ [Event.invoke funcId r, Event.armTimer s.nextTimerId]) := by
  have hmg : mapGet (scheduleResult s taskName funcId interval options r).tasks taskName
      = some ⟨s.nextTimerId, funcId, resolveInterval interval, s.now, 0,
          options.maxExecutions⟩ := by
    simp [scheduleResult, mapGet_mapSet_self, stop_snd_now, stop_snd_nextTimerId]
  refine ⟨schedule_ok s taskName funcId interval options r hname hint, ?_, ?_, hmg, ?_⟩
  · simp [getTask, hmg]
  · simp [hasTask, hmg]
  · intro hri
    simp [scheduleResult, hri, stop_snd_nextTimerId]

/-- Witness for C5_snapshot_after_schedule: `schedule('ping', f, 'second',
runImmediately = true)` on a fresh scheduler. -/
theorem C5_snapshot_after_schedule_witness :
    schedule newScheduler "ping" (.fn 0) (IntervalArg.unit .second)
        ⟨true, none⟩ ActionResult.retUnit
      = .ok (scheduleResult newScheduler "ping" 0 (IntervalArg.unit .second)
          ⟨true, none⟩ ActionResult.retUnit) ∧
    getTask (scheduleResult newScheduler "ping" 0 (IntervalArg.unit .second)
        ⟨true, none⟩ ActionResult.retUnit) "ping"
      = some ⟨"ping", resolveInterval (IntervalArg.unit .second), newScheduler.now, 0, true⟩ ∧
    hasTask (scheduleResult newScheduler "ping" 0 (IntervalArg.unit .second)
        ⟨true, none⟩ ActionResult.retUnit) "ping" = true ∧
    mapGet (scheduleResult newScheduler "ping" 0 (IntervalArg.unit .second)
        ⟨true, none⟩ ActionResult.retUnit).tasks "ping"
      = some ⟨newScheduler.nextTimerId, 0, resolveInterval (IntervalArg.unit .second),
          newScheduler.now, 0, none⟩ ∧
    ((true : Bool) = true →
      (scheduleResult newScheduler "ping" 0 (IntervalArg.unit .second)
          ⟨true, none⟩ ActionResult.retUnit).events
        = (stop newScheduler "ping").2.events
            ++ [Event.invoke 0 ActionResult.retUnit,
                Event.armTimer newScheduler.nextTimerId]) :=
  C5_snapshot_after_schedule newScheduler "ping" 0 (IntervalArg.unit .second)
    ⟨true, none⟩ ActionResult.retUnit rfl rfl

/-- C4: a successful `schedule` under an already-registered name first fully
stops the prior entry (its timer id is gone from the live timers) and then
stores exactly one entry under that name — carrying the newly resolved
interval, a fresh `startTime = now`, and `executionCount = 0` — and the old
timer can never fire again (a tick on the old timer id is a no-op that
returns the state unchanged).  The hypothesis `htid` records that the old
handle was allocated by the timer-id counter, so it is distinct from the
fresh one. -/
theorem C4_replace_semantics (s : Scheduler) (taskName : String) (oldTask : TaskEntry)
    (funcId : Nat) (interval : IntervalArg) (options : ScheduleOptions)
    (r r2 : ActionResult)
    (hreg : mapGet s.tasks taskName = some oldTask)
    (htid : oldTask.timerId < s.nextTimerId)
    (hname : trimmedEmpty taskName = false)
    (hint : intervalInvalid (resolveInterval interval) = false) :
    schedule s taskName (.fn funcId) interval options r
      = .ok (scheduleResult s taskName funcId interval options r) ∧
    countKey (scheduleResult s taskName funcId interval options r).tasks taskName = 1 ∧
    mapGet (scheduleResult s taskName funcId interval options r).tasks taskName
      = some ⟨s.nextTimerId, funcId, resolveInterval interval, s.now, 0,
          options.maxExecutions⟩ ∧
    ¬ oldTask.timerId ∈
      ((scheduleResult s taskName funcId interval options r).activeTimers.map Prod.fst) ∧
    tick (scheduleResult s taskName funcId interval options r) oldTask.timerId r2
      = .ok (scheduleResult s taskName funcId interval options r) := by
  have hstop2 : (stop s taskName).2
      = { s with
          activeTimers := s.activeTimers.filter (fun p => p.1 != oldTask.timerId),
          tasks := mapDelete s.tasks taskName,
          events := s.events ++ [Event.clearTimer oldTask.timerId] } := by
    simp [stop, hreg]
  have htasks : (scheduleResult s taskName funcId interval options r).tasks
      = mapDelete s.tasks taskName
          ++ [(taskName, ⟨s.nextTimerId, funcId, resolveInterval interval, s.now, 0,
                options.maxExecutions⟩)] := by
    simp only [scheduleResult, hstop2]
    exact mapSet_eq_append _ _ _ (mapGet_mapDelete_self _ _)
  have htimers : (scheduleResult s taskName funcId interval options r).activeTimers
      = s.activeTimers.filter (fun p => p.1 != oldTask.timerId)
          ++ [(s.nextTimerId, taskName)] := by
    simp [scheduleResult, hstop2]
  have hnotmem : ¬ oldTask.timerId ∈
      ((scheduleResult s taskName funcId interval options r).activeTimers.map Prod.fst) := by
    rw [htimers]
    intro hmem
    simp only [List.map_append, List.mem_append, List.mem_map, List.mem_filter] at hmem
    rcases hmem with ⟨x, ⟨hx, hne⟩, hfst⟩ | hmem
    · rw [hfst] at hne
      simp at hne
    · simp at hmem
      omega
  refine ⟨schedule_ok s taskName funcId interval options r hname hint, ?_, ?_, hnotmem, ?_⟩
  · rw [htasks, countKey_append_single, countKey_mapDelete_self]
  · simp [scheduleResult, hstop2, mapGet_mapSet_self]
  · have hfind : ((scheduleResult s taskName funcId interval options r).activeTimers.find?
        (fun p => p.1 == oldTask.timerId)) = none := by
      rw [List.find?_eq_none]
      intro x hx hbeq
      exact hnotmem (List.mem_map.mpr ⟨x, hx, by simpa using hbeq⟩)
    simp [tick, hfind]

/-- Witness for C4_replace_semantics: re-registering `"t"` over the sample
state with a minute interval and a cap of 2. -/
theorem C4_replace_semantics_witness :
    schedule sampleState "t" (.fn 1) (IntervalArg.unit .minute)
        ⟨false, some 2⟩ ActionResult.retUnit
      = .ok (scheduleResult sampleState "t" 1 (IntervalArg.unit .minute)
          ⟨false, some 2⟩ ActionResult.retUnit) ∧
    countKey (scheduleResult sampleState "t" 1 (IntervalArg.unit .minute)
        ⟨false, some 2⟩ ActionResult.retUnit).tasks "t" = 1 ∧
    mapGet (scheduleResult sampleState "t" 1 (IntervalArg.unit .minute)
        ⟨false, some 2⟩ ActionResult.retUnit).tasks "t"
      = some ⟨sampleState.nextTimerId, 1, resolveInterval (IntervalArg.unit .minute),
          sampleState.now, 0, some 2⟩ ∧
    ¬ sampleTask.timerId ∈
      ((scheduleResult sampleState "t" 1 (IntervalArg.unit .minute)
          ⟨false, some 2⟩ ActionResult.retUnit).activeTimers.map Prod.fst) ∧
    tick (scheduleResult sampleState "t" 1 (IntervalArg.unit .minute)
        ⟨false, some 2⟩ ActionResult.retUnit) sampleTask.timerId ActionResult.retUnit
      = .ok (scheduleResult sampleState "t" 1 (IntervalArg.unit .minute)
          ⟨false, some 2⟩ ActionResult.retUnit) :=
  C4_replace_semantics sampleState "t" sampleTask 1 (IntervalArg.unit .minute)
    ⟨false, some 2⟩ ActionResult.retUnit ActionResult.retUnit rfl (by decide) rfl rfl

/-- C3: a failing action (synchronous throw or rejected promise) is caught by
`executeTask` and reported instead of propagated, on every run path: the tick
still increments `executionCount` and (when the cap is not the reason to
stop) neither removes the task nor touches any timer; `executeNow` still
succeeds with the increment; and a failing `runImmediately` invocation does
not derail `schedule`. -/
theorem C3_fault_isolation (s : Scheduler) (taskName : String) (task : TaskEntry)
    (r : ActionResult) (e : String) (funcId : Nat) (interval : IntervalArg)
    (options : ScheduleOptions)
    (hfail : invokeAndAwait r = .error e)
    (hget : mapGet s.tasks taskName = some task)
    (hcap : capCheck task.maxExecutions (task.executionCount + 1) = false)
    (hname : trimmedEmpty taskName = false)
    (hint : intervalInvalid (resolveInterval interval) = false) :
    executeTask r = .ok (some e) ∧
    tickBody s taskName r = .ok (tickIncState s taskName task r) ∧
    mapGet (tickIncState s taskName task r).tasks taskName
      = some { task with executionCount := task.executionCount + 1 } ∧
    (tickIncState s taskName task r).activeTimers = s.activeTimers ∧
    hasTask (tickIncState s taskName task r) taskName = true ∧
    executeNow s taskName r = .ok (true, tickIncState s taskName task r) ∧
    schedule s taskName (.fn funcId) interval options r
      = .ok (scheduleResult s taskName funcId interval options r) := by
  refine ⟨?_, ?_, ?_, rfl, ?_, executeNow_some s taskName task r hget,
    schedule_ok s taskName funcId interval options r hname hint⟩
  · simp [executeTask, hfail]
  · rw [tickBody_some s taskName task r hget, hcap]
    simp
  · simp [tickIncState, mapGet_mapSet_self]
  · simp [hasTask, tickIncState, mapGet_mapSet_self]

/-- Witness for C3_fault_isolation: the action throws `"boom"` on the sample
state. -/
theorem C3_fault_isolation_witness :
    executeTask (ActionResult.throws "boom") = .ok (some "boom") ∧
    tickBody sampleState "t" (ActionResult.throws "boom")
      = .ok (tickIncState sampleState "t" sampleTask (ActionResult.throws "boom")) ∧
    mapGet (tickIncState sampleState "t" sampleTask (ActionResult.throws "boom")).tasks "t"
      = some { sampleTask with executionCount := sampleTask.executionCount + 1 } ∧
    (tickIncState sampleState "t" sampleTask (ActionResult.throws "boom")).activeTimers
      = sampleState.activeTimers ∧
    hasTask (tickIncState sampleState "t" sampleTask (ActionResult.throws "boom")) "t"
      = true ∧
    executeNow sampleState "t" (ActionResult.throws "boom")
      = .ok (true, tickIncState sampleState "t" sampleTask (ActionResult.throws "boom")) ∧
    schedule sampleState "t" (.fn 1) (IntervalArg.unit .minute) ⟨true, none⟩
        (ActionResult.throws "boom")
      = .ok (scheduleResult sampleState "t" 1 (IntervalArg.unit .minute) ⟨true, none⟩
          (ActionResult.throws "boom")) :=
  C3_fault_isolation sampleState "t" sampleTask (ActionResult.throws "boom") "boom" 1
    (IntervalArg.unit .minute) ⟨true, none⟩ rfl rfl rfl rfl rfl

/-- C1, counterexample: schedule a task with `maxExecutions = 1`, then bring
its `executionCount` to the cap through `executeNow` — the operation
completes, the count equals the cap, yet the task is still in the registry
(`hasTask` is `true`), contradicting the claim that every path that
increments `executionCount` triggers the self-stop. -/
theorem C1_cap_counterexample :
    schedule newScheduler "t" (FuncArg.fn 0) (IntervalArg.num (JSNum.fin 1000))
        ⟨false, some 1⟩ ActionResult.retUnit = .ok c1State1 ∧
    executeNow c1State1 "t" ActionResult.retUnit = .ok (true, c1State2) ∧
    (mapGet c1State2.tasks "t").map (fun t => t.executionCount) = some 1 ∧
    (mapGet c1State2.tasks "t").map (fun t => t.maxExecutions) = some (some 1) ∧
    hasTask c1State2 "t" = true :=
  ⟨rfl, rfl, rfl, rfl, rfl⟩

/-- C1, amended: the cap is enforced on timer ticks only.  A tick whose
increment brings `executionCount` to at least the positive cap `k` stops and
removes the task as its last step (`hasTask` false, timer handle cleared); but
`executeNow` increments the counter without any cap check, so a task whose
count has reached `k` that way stays registered until the next tick. -/
theorem C1_cap_amended (s : Scheduler) (taskName : String) (task : TaskEntry)
    (k : Nat) (r : ActionResult)
    (hget : mapGet s.tasks taskName = some task)
    (hmax : task.maxExecutions = some k)
    (hk : k ≠ 0)
    (hreach : k ≤ task.executionCount + 1) :
    tickBody s taskName r
      = .ok (stop (tickIncState s taskName task r) taskName).2 ∧
    hasTask (stop (tickIncState s taskName task r) taskName).2 taskName = false ∧
    ¬ task.timerId ∈
      ((stop (tickIncState s taskName task r) taskName).2.activeTimers.map Prod.fst) ∧
    executeNow s taskName r = .ok (true, tickIncState s taskName task r) ∧
    hasTask (tickIncState s taskName task r) taskName = true := by
  have hcap : capCheck task.maxExecutions (task.executionCount + 1) = true := by
    simp [capCheck, hmax, bne_iff_ne, hk, hreach]
  have hinc : mapGet (tickIncState s taskName task r).tasks taskName
      = some { task with executionCount := task.executionCount + 1 } := by
    simp [tickIncState, mapGet_mapSet_self]
  have hstop2 : (stop (tickIncState s taskName task r) taskName).2
      = { (tickIncState s taskName task r) with
          activeTimers := (tickIncState s taskName task r).activeTimers.filter
            (fun p => p.1 != task.timerId),
          tasks := mapDelete (tickIncState s taskName task r).tasks taskName,
          events := (tickIncState s taskName task r).events
            ++ [Event.clearTimer task.timerId] } := by
    simp [stop, hinc]
  refine ⟨?_, ?_, ?_, executeNow_some s taskName task r hget, ?_⟩
  · rw [tickBody_some s taskName task r hget, hcap]
    simp
  · simp [hasTask, hstop2, mapGet_mapDelete_self]
  · rw [hstop2]
    intro hmem
    simp only [List.mem_map, List.mem_filter] at hmem
    rcases hmem with ⟨x, ⟨hx, hne⟩, hfst⟩
    rw [hfst] at hne
    simp at hne
  · simp [hasTask, hinc]

/-- Witness for C1_cap_amended at the counterexample state `c1State2`, whose
counter already sits at the cap: the next tick removes the task, while
`executeNow` would leave it registered once more. -/
theorem C1_cap_amended_witness :
    tickBody c1State2 "t" ActionResult.retUnit
      = .ok (stop (tickIncState c1State2 "t" c1Task2 ActionResult.retUnit) "t").2 ∧
    hasTask (stop (tickIncState c1State2 "t" c1Task2 ActionResult.retUnit) "t").2 "t"
      = false ∧
    ¬ c1Task2.timerId ∈
      ((stop (tickIncState c1State2 "t" c1Task2 ActionResult.retUnit) "t").2.activeTimers.map
        Prod.fst) ∧
    executeNow c1State2 "t" ActionResult.retUnit
      = .ok (true, tickIncState c1State2 "t" c1Task2 ActionResult.retUnit) ∧
    hasTask (tickIncState c1State2 "t" c1Task2 ActionResult.retUnit) "t" = true :=
  C1_cap_amended c1State2 "t" c1Task2 1 ActionResult.retUnit rfl rfl
    (by decide) (by decide)

/-- C9: `stopAll` returns the number of tasks registered at the moment of the
call and removes them all; `destroy` is exactly that bulk stop, so afterwards
`taskCount = 0`, `getActiveTasks` is empty, and any further timer firing is a
no-op returning the state unchanged. -/
theorem C9_stopAll_destroy (s : Scheduler) :
    (stopAll s).1 = taskCount s ∧
    (stopAll s).2.tasks = [] ∧
    destroy s = (stopAll s).2 ∧
    taskCount (destroy s) = 0 ∧
    getActiveTasks (destroy s) = [] ∧
    ∀ (timerId : Nat) (r : ActionResult), tick (destroy s) timerId r = .ok (destroy s) := by
  have h : (stopAll s).2.tasks = [] := stopAll_tasks_nil s
  refine ⟨rfl, h, rfl, ?_, ?_, ?_⟩
  · simp [taskCount, destroy, h]
  · simp [getActiveTasks, destroy, h]
  · intro timerId r
    exact tick_of_tasks_nil (destroy s) timerId r (by simpa [destroy] using h)

end Sched
